import Mathlib

/-
Verification development for the geofy imagery API (job orchestration
pipeline, availability resolver, change analyzer, webhook delivery and
GeoTIFF conversion).  The Python sources in `app/` are shallowly embedded:
pure string processing is translated character by character, the
orchestrator (`app/main.py`, `process_imagery_job`) becomes an explicit
trace of committed database snapshots, and every external collaborator
(the imagery CLI tool, Cloudinary, Gemini, the HTTP client) is a
parameter of the run.  Machine floats of the Python code are modelled by
exact rationals.
-/

namespace Geofy

/-! ## Python string primitives, on `List Char` -/

/-- Model of Python `str.strip()`: remove leading and trailing whitespace. -/
def pyStrip (s : List Char) : List Char :=
  ((s.dropWhile Char.isWhitespace).reverse.dropWhile Char.isWhitespace).reverse

/-- Model of Python `str.split(sep)` for a one-character separator:
splits on every occurrence, keeping empty pieces. -/
def pySplitChar (sep : Char) : List Char → List (List Char)
  | [] => [[]]
  | c :: cs =>
    if c = sep then [] :: pySplitChar sep cs
    else
      match pySplitChar sep cs with
      | [] => [[c]]
      | t :: ts => (c :: t) :: ts

/-- Model of Python `needle in haystack` on strings (substring test). -/
def pyContains (needle : List Char) : List Char → Bool
  | [] => needle.isEmpty
  | c :: cs => needle.isPrefixOf (c :: cs) || pyContains needle cs

/-- Model of Python `str.replace(pat, rep)` (all occurrences, left to
right), fuelled to keep the recursion structural. -/
def pyReplaceAux (pat rep : List Char) : Nat → List Char → List Char
  | 0, l => l
  | _ + 1, [] => []
  | fuel + 1, c :: cs =>
    if pat ≠ [] ∧ pat.isPrefixOf (c :: cs) then
      rep ++ pyReplaceAux pat rep fuel ((c :: cs).drop pat.length)
    else
      c :: pyReplaceAux pat rep fuel cs

/-- Model of Python `str.replace(pat, rep)`. -/
def pyReplace (pat rep l : List Char) : List Char :=
  pyReplaceAux pat rep l.length l

/-- Code-point comparison of character lists; this is the order Python
uses to sort strings. -/
def charListLe : List Char → List Char → Bool
  | [], _ => true
  | _ :: _, [] => false
  | a :: as, b :: bs =>
    if a.toNat < b.toNat then true
    else if b.toNat < a.toNat then false
    else charListLe as bs

/-- String order used by `sorted(...)` in the availability resolver. -/
def strLe (a b : String) : Prop := charListLe a.data b.data = true

instance : DecidableRel strLe := fun a b => by unfold strLe; infer_instance

/-! ## Availability resolver
(`app/services.py`, `ImageryService._parse_availability_output` and
`check_availability`). -/

/-- Does the regex `\d{4}/\d{2}/\d{2}` match at the head of the list?
Digits are ASCII here; the CLI tool output the code parses is ASCII. -/
def dateTokenAt : List Char → Bool
  | a :: b :: c :: d :: s1 :: e :: f :: s2 :: g :: h :: _ =>
    a.isDigit && b.isDigit && c.isDigit && d.isDigit && s1 = '/' &&
    e.isDigit && f.isDigit && s2 = '/' && g.isDigit && h.isDigit
  | _ => false

/-- Fuelled scan implementing `re.findall(r'\d{4}/\d{2}/\d{2}', line)`:
leftmost, non-overlapping matches. -/
def findallDatesAux : Nat → List Char → List (List Char)
  | 0, _ => []
  | _ + 1, [] => []
  | fuel + 1, c :: cs =>
    if dateTokenAt (c :: cs) then
      (c :: cs).take 10 :: findallDatesAux fuel ((c :: cs).drop 10)
    else
      findallDatesAux fuel cs

/-- All `YYYY/MM/DD` tokens of one line, in match order. -/
def findallDates (l : List Char) : List (List Char) :=
  findallDatesAux l.length l

/-- Normalization `match.replace('/', '-')` applied to a matched token. -/
def normalizeDateToken (m : List Char) : String :=
  String.mk (m.map fun ch => if ch = '/' then '-' else ch)

/-- The date tokens the parser extracts from the whole output: the text is
stripped, split into lines, each line scanned with the date regex, and
every match normalized to `YYYY-MM-DD`, preserving order of appearance. -/
def normalizedMatches (output : String) : List String :=
  ((pySplitChar '\n' (pyStrip output.data)).flatMap findallDates).map
    normalizeDateToken

/-- Model of `sorted(list(set(dates)))`: deduplicate, then sort by the
Python string order. -/
def sortedDedup (l : List String) : List String :=
  List.insertionSort strLe l.dedup

/-- Error message raised when the pattern matches zero tokens, after the
re-wrapping done by the surrounding `except` clause of
`_parse_availability_output`. -/
def noDatesError : String :=
  "Failed to parse availability dates: No imagery dates found for this location"

/-- Model of `ImageryService._parse_availability_output`: extract, dedup
and sort the date tokens; raise when there are none. -/
def parse_availability_output (output : String) : Except String (List String) :=
  let dates := sortedDedup (normalizedMatches output)
  if dates.isEmpty then Except.error noDatesError else Except.ok dates

/-- Whether a string has the shape `YYYY-MM-DD` (all digits, dashes at
positions 4 and 7) - the shape of every normalized extracted token. -/
def isNormalizedDate (s : String) : Bool :=
  match s.data with
  | [a, b, c, d, s1, e, f, s2, g, h] =>
    a.isDigit && b.isDigit && c.isDigit && d.isDigit && s1 = '-' &&
    e.isDigit && f.isDigit && s2 = '-' && g.isDigit && h.isDigit
  | _ => false

/-! ## Change analyzer
(`app/services.py`, `ImageryService.analyze_with_gemini`).  The JSON
values `json.loads` can produce are embedded as `JValue`; the Gemini call
and the JSON parser are environment parameters. -/

/-- JSON values as produced by `json.loads`. -/
inductive JValue where
  | null
  | bool (b : Bool)
  | num (n : Int)
  | str (s : String)
  | arr (elems : List JValue)
  | obj (kvs : List (String × JValue))

/-- External collaborators of the analyzer: which image files exist on
disk, the outcome of the Gemini API call (exception or response text),
and the JSON parser (`json.loads`: `none` models `JSONDecodeError`). -/
structure GeminiEnv where
  fileExists : String → Bool
  call : Except String String
  parse : String → Option JValue

/-- The code-fence marker that the analyzer strips. -/
def fenceMarker : String := "```"

/-- The JSON code-fence opener that the analyzer strips. -/
def fenceJsonMarker : String := "```json"

/-- Fence stripping of `analyze_with_gemini`: if the (already stripped)
response starts with a fence marker, remove every occurrence of the
markers and strip again before the parse attempt. -/
def stripFences (t : String) : String :=
  if fenceJsonMarker.data.isPrefixOf t.data then
    String.mk (pyStrip (pyReplace fenceMarker.data []
      (pyReplace fenceJsonMarker.data [] t.data)))
  else if fenceMarker.data.isPrefixOf t.data then
    String.mk (pyStrip (pyReplace fenceMarker.data [] t.data))
  else t

/-- The three keys every analysis result must carry. -/
def requiredKeys : List String := ["changes_detected", "timeline", "summary"]

/-- A single-quote character, built by code point to mirror Python
`repr` quoting. -/
def pyQuote : String := String.mk [Char.ofNat 39]

/-- Python `repr` of a list of strings, as interpolated into the
missing-fields error message. -/
def pyListRepr (l : List String) : String :=
  "[" ++ String.intercalate ", " (l.map fun s => pyQuote ++ s ++ pyQuote) ++ "]"

/-- The degraded result returned by the analyzer's top-level exception
handler. -/
def analysisExcResult (msg : String) : List (String × JValue) :=
  [("error", JValue.str ("AI analysis failed: " ++ msg)),
   ("changes_detected", JValue.arr []),
   ("timeline", JValue.arr []),
   ("summary", JValue.str "Analysis unavailable due to error")]

/-- The degraded result returned when no image file exists. -/
def noImagesResult : List (String × JValue) :=
  [("error", JValue.str "No valid images found for analysis"),
   ("changes_detected", JValue.arr []),
   ("timeline", JValue.arr []),
   ("summary", JValue.str "Analysis unavailable - no images")]

/-- The degraded result returned when `json.loads` fails on the
(fence-stripped) response text `t`. -/
def parseFailResult (t : String) : List (String × JValue) :=
  [("error", JValue.str "AI response was not valid JSON"),
   ("raw_response", JValue.str (String.mk (t.data.take 500))),
   ("changes_detected", JValue.arr [JValue.str "Unable to parse AI response"]),
   ("timeline", JValue.arr []),
   ("summary", JValue.str "AI analysis completed but response format was invalid")]

/-- The partially-filled result returned when the parsed object is
missing one of the required keys: available fields are preserved via
`analysis.get(key, default)`. -/
def missingKeysResult (kvs : List (String × JValue)) (missing : List String) :
    List (String × JValue) :=
  [("error", JValue.str ("AI response missing required fields: " ++ pyListRepr missing)),
   ("changes_detected", (List.lookup "changes_detected" kvs).getD (JValue.arr [])),
   ("timeline", (List.lookup "timeline" kvs).getD (JValue.arr [])),
   ("summary", (List.lookup "summary" kvs).getD (JValue.str "Incomplete analysis"))]

/-- Which JSON values support Python `len()` (str, list, dict).  The
success path of the analyzer calls `len` on all three required values
while logging; a non-sized value raises `TypeError` there and the outer
handler returns the degraded result. -/
def jvHasLen : JValue → Bool
  | JValue.str _ => true
  | JValue.arr _ => true
  | JValue.obj _ => true
  | _ => false

/-- The analyzer's handling of the `json.loads` result for the
fence-stripped text `t`.  A parse result that is not a JSON object
raises in the membership test / `.get` / subscript code and is caught by
the outer handler (modelled by `analysisExcResult`); so does the logging
`len()` call on a present but non-sized required value.  The
exception-message strings of the Python runtime are abbreviated, their
exact content is never observable beyond being non-empty. -/
def analyzeParsed (t : String) (parsed : Option JValue) : List (String × JValue) :=
  match parsed with
  | none => parseFailResult t
  | some (JValue.obj kvs) =>
    let missing := requiredKeys.filter fun k => (List.lookup k kvs).isNone
    if missing.isEmpty then
      if jvHasLen ((List.lookup "changes_detected" kvs).getD JValue.null) &&
         jvHasLen ((List.lookup "timeline" kvs).getD JValue.null) &&
         jvHasLen ((List.lookup "summary" kvs).getD JValue.null) then
        kvs
      else analysisExcResult "object has no len()"
    else missingKeysResult kvs missing
  | some _ => analysisExcResult "argument is not a dict"

/-- Model of `ImageryService.analyze_with_gemini`.  It is a total
function: every Python exception path is caught inside the source
function and folded into a degraded three-key result.  The response
text is stripped, fence markers are removed, and only then is the JSON
parser applied. -/
def analyze_with_gemini (env : GeminiEnv) (image_paths : List String) :
    List (String × JValue) :=
  let images := image_paths.filter env.fileExists
  if images.isEmpty then noImagesResult
  else
    match env.call with
    | Except.error msg => analysisExcResult msg
    | Except.ok raw =>
      let t := stripFences (String.mk (pyStrip raw.data))
      analyzeParsed t (env.parse t)

/-- Does a result dictionary carry a key? -/
def hasKey (r : List (String × JValue)) (k : String) : Bool :=
  (List.lookup k r).isSome

/-- All three required keys are present. -/
def hasRequiredKeys (r : List (String × JValue)) : Bool :=
  hasKey r "changes_detected" && hasKey r "timeline" && hasKey r "summary"

/-! ## Webhook delivery
(`app/services.py`, `WebhookService.send_webhook`) together with a model
of Python call binding for the orchestrator's call sites. -/

/-- Outcome of one `httpx` POST attempt: a status code, or a raised
exception (network error / timeout). -/
inductive HttpOutcome where
  | status (code : Nat)
  | exc (msg : String)

/-- One HTTP request as issued by `client.post(url, json=payload)`: the
code passes the JSON payload and no custom headers. -/
structure HttpRequest where
  url : String
  payloadKeys : List String
  headers : List (String × String)

/-- Hard-coded attempt bound of `send_webhook` (`max_retries = 3`; the
configured `WEBHOOK_MAX_RETRIES` is not consulted). -/
def webhookMaxRetries : Nat := 3

/-- Attempt loop of `send_webhook`: `attempt` is the current index,
the second argument counts remaining loop iterations.  A status below
300 stops with success; a status of 300 or more falls through to the
next iteration; an exception returns failure on the last attempt and
otherwise sleeps and retries.  Falling off the loop returns failure. -/
def sendWebhookAux (outcome : Nat → HttpOutcome) (url : String)
    (payloadKeys : List String) : Nat → Nat → Bool × List HttpRequest
  | _, 0 => (false, [])
  | attempt, remaining + 1 =>
    let req : HttpRequest := { url := url, payloadKeys := payloadKeys, headers := [] }
    match outcome attempt with
    | HttpOutcome.status code =>
      if code < 300 then (true, [req])
      else
        let rest := sendWebhookAux outcome url payloadKeys (attempt + 1) remaining
        (rest.1, req :: rest.2)
    | HttpOutcome.exc _ =>
      if attempt = webhookMaxRetries - 1 then (false, [req])
      else
        let rest := sendWebhookAux outcome url payloadKeys (attempt + 1) remaining
        (rest.1, req :: rest.2)

/-- Model of `WebhookService.send_webhook(url, payload)`: returns the
success boolean and the list of HTTP requests actually issued. -/
def send_webhook (outcome : Nat → HttpOutcome) (url : String)
    (payloadKeys : List String) : Bool × List HttpRequest :=
  sendWebhookAux outcome url payloadKeys 0 webhookMaxRetries

/-- Python call binding: positional arguments fill the leading
parameters, and every keyword argument must name one of the remaining
parameters, otherwise the call raises `TypeError` before the function
body runs.  (Our call sites have no duplicate keywords.) -/
def pyCallBindsOk (params : List String) (numPositional : Nat)
    (kwargs : List String) : Bool :=
  numPositional ≤ params.length &&
  kwargs.all fun k => (params.drop numPositional).contains k

/-- The parameter list of `WebhookService.send_webhook` (a static
method): `(url, payload)`. -/
def send_webhook_params : List String := ["url", "payload"]

/-- Binding check for the orchestrator's webhook calls, which pass two
positional arguments plus the keyword argument `event`. -/
def webhookCallBindsOk : Bool := pyCallBindsOk send_webhook_params 2 ["event"]

/-! ## Configuration (`app/config.py`), webhook-relevant fields. -/

/-- The webhook-related settings of `Settings` with their defaults.
`WEBHOOK_SIGNING_SECRET` is documented in the source as: if set,
payloads are HMAC signed. -/
structure Settings where
  WEBHOOK_SIGNING_SECRET : Option String := none
  WEBHOOK_REQUEST_TIMEOUT_SECONDS : Nat := 30
  WEBHOOK_MAX_RETRIES : Nat := 5
  WEBHOOK_BACKOFF_BASE_SECONDS : Nat := 2
  WEBHOOK_TOLERANCE_SECONDS : Nat := 300

/-! ## Intake validation (`app/schemas.py`, `CaptureRequest`). -/

/-- Digit list to number, most significant first. -/
def digitsToNat (l : List Char) : Nat :=
  l.foldl (fun acc c => 10 * acc + (c.toNat - 48)) 0

/-- Unsigned decimal literal (`123`, `12.5`, `.5`, `7.`) to an exact
rational. -/
def parseUnsignedDecimal (s : List Char) : Option ℚ :=
  match pySplitChar '.' s with
  | [i] =>
    if i ≠ [] ∧ i.all Char.isDigit then some (mkRat (digitsToNat i) 1) else none
  | [i, f] =>
    if (i ++ f) ≠ [] ∧ i.all Char.isDigit ∧ f.all Char.isDigit then
      some (mkRat (digitsToNat i * 10 ^ f.length + digitsToNat f) (10 ^ f.length))
    else none
  | _ => none

/-- Model of Python `float(s)` for the plain decimal forms the
coordinate validator receives (exponent / `inf` / `nan` spellings are
out of scope of the coordinate strings). -/
def pyFloat (s : List Char) : Option ℚ :=
  match pyStrip s with
  | '-' :: rest => (parseUnsignedDecimal rest).map fun q => -q
  | '+' :: rest => parseUnsignedDecimal rest
  | t => parseUnsignedDecimal t

/-- Model of `CaptureRequest.validate_coordinates`: exactly two
comma-separated parts, both parseable as floats, latitude in
`[-90, 90]` and longitude in `[-180, 180]`. -/
def validate_coordinates (v : String) : Bool :=
  match pySplitChar ',' v.data with
  | [p1, p2] =>
    match pyFloat p1, pyFloat p2 with
    | some lat, some lon =>
      decide (-90 ≤ lat ∧ lat ≤ 90) && decide (-180 ≤ lon ∧ lon ≤ 180)
    | _, _ => false
  | _ => false

/-- Host part of a URL after the `https://` scheme (a simplification of
`urllib.parse.urlparse(...).netloc` sufficient for the validator). -/
def urlHost (s : List Char) : List Char :=
  (s.drop 8).takeWhile fun c => c ≠ '/'

/-- Model of `CaptureRequest.validate_callback_url`: `None` and the
empty string pass; otherwise the scheme must be `https` and the host
non-empty. -/
def validate_callback_url (v : Option String) : Bool :=
  match v with
  | none => true
  | some s =>
    if s = "" then true
    else "https://".data.isPrefixOf s.data && !(urlHost s.data).isEmpty

/-- The intake request (`CaptureRequest`): `zoomLevel` defaults to 18
and is validated by pydantic `Field(18, ge=0, le=23)`. -/
structure CaptureRequest where
  coordinates : String
  locationName : String
  zoomLevel : Int := 18
  callbackUrl : Option String := none

/-- Whole-request validation: the pydantic field bound on `zoomLevel`
plus the two validators. -/
def captureRequestValid (r : CaptureRequest) : Bool :=
  decide (0 ≤ r.zoomLevel ∧ r.zoomLevel ≤ 23) &&
  validate_coordinates r.coordinates &&
  validate_callback_url r.callbackUrl

/-! ## Job records and the orchestrator
(`app/models.py` and `app/main.py`, `process_imagery_job`).  A run is
the list of database snapshots in commit order plus the webhook call
attempts made after the terminal commit. -/

/-- Job states (`models.JobStatus`). -/
inductive JobStatus where
  | queued
  | processing
  | completed
  | failed
deriving DecidableEq

/-- The three URLs derived from one Cloudinary upload. -/
structure CloudinaryUrls where
  original : String
  optimized : String
  thumbnail : String

/-- One per-year image descriptor as appended to `results` in the
orchestrator loop. -/
structure ImageResult where
  year : Nat
  captureDate : String
  imageUrl : String
  optimizedUrl : String
  thumbnailUrl : String

/-- The mutable job columns the pipeline touches (`models.Job`);
`completed_at_set` models whether the nullable `completed_at` timestamp
has been assigned. -/
structure JobRecord where
  status : JobStatus
  progress : Nat
  error_message : Option String := none
  imagery_data : Option (List ImageResult) := none
  ai_analysis : Option (List (String × JValue)) := none
  completed_at_set : Bool := false

/-- A freshly created job: the column defaults of `models.Job` with the
explicit `status=JobStatus.QUEUED` of the intake handler. -/
def initialJob : JobRecord := { status := JobStatus.queued, progress := 0 }

/-- Model of the `/api/capture` handler: a valid request creates a
QUEUED job with progress 0 and schedules background processing; an
invalid one is rejected by FastAPI before any job exists. -/
def capture_imagery (r : CaptureRequest) : Option JobRecord :=
  if captureRequestValid r then some initialJob else none

/-- Failure of one external CLI invocation (`subprocess.run`): a
timeout, or any other failure (non-zero exit, or a missing output
artifact after reported success). -/
inductive StepFailure where
  | timeout
  | fails (msg : String)

/-- The external collaborators of one job execution.  Availability
yields the decoded stdout of the CLI tool; download is a CLI invocation
keyed by date; convert and upload can fail with a message;
`webhookOutcome` drives the HTTP attempts of `send_webhook` (never
reached by the shipped code, see the C1 theorem). -/
structure PipelineEnv where
  availability : Except StepFailure String
  download : String → Except StepFailure Unit
  convert : String → Except String Unit
  upload : String → Except String CloudinaryUrls
  gemini : GeminiEnv
  webhookOutcome : Nat → HttpOutcome

/-- Model of `ImageryService.check_availability`: a timeout raises its
own message, any other failure and any parse failure is wrapped in
`Failed to check availability: `. -/
def check_availability (env : PipelineEnv) : Except String (List String) :=
  match env.availability with
  | Except.error StepFailure.timeout =>
    Except.error "Availability check timed out after 60 seconds"
  | Except.error (StepFailure.fails m) =>
    Except.error ("Failed to check availability: " ++ m)
  | Except.ok out =>
    match parse_availability_output out with
    | Except.error m => Except.error ("Failed to check availability: " ++ m)
    | Except.ok ds => Except.ok ds

/-- The year substrings `str(y) for y in range(2018, 2026)` used by the
orchestrator's window filter. -/
def targetYearStrings : List String := (List.range 8).map fun i => Nat.repr (2018 + i)

/-- Membership test of one resolved date in the supported window, as the
code writes it: `any(str(y) in d for y in target_years)` - a substring
test, not a structured year comparison. -/
def dateInWindow (d : String) : Bool :=
  targetYearStrings.any fun y => pyContains y.data d.data

/-- The filtered date list `dates_to_download`. -/
def dates_to_download (ds : List String) : List String := ds.filter dateInWindow

/-- Python `int()` truncation toward zero. -/
def pyInt (q : ℚ) : Int := if 0 ≤ q then ⌊q⌋ else ⌈q⌉

/-- Progress committed after the `(k)`-th of `n` dates:
`int(20 + (idx + 1) * progress_per_year)` with
`progress_per_year = 60 / len(dates_to_download)`, read over exact
rationals.  The source computes in IEEE-754 doubles, whose value can
fall one below this exact reading at rare inputs where `60 * k / n` is
an exact integer (for example n = 231, k = 154); every property proved
about these commits here (bounds within `[20, 80]` and monotonicity in
`k`) holds of the double evaluation as well, since rounding and
truncation are monotone and the sub-ulp error never crosses the bound
thresholds. -/
def loopProgress (n k : Nat) : Nat :=
  (pyInt (20 + (k : ℚ) * ((60 : ℚ) / (n : ℚ)))).toNat

/-- Model of `int(date.split('-')[0])`: the leading dash-separated
component must be all digits (Python would raise `ValueError` with a
non-empty `invalid literal` message otherwise). -/
def yearOf (date : String) : Except String Nat :=
  let head := (pySplitChar '-' date.data).headD []
  if head ≠ [] ∧ head.all Char.isDigit then Except.ok (digitsToNat head)
  else Except.error "invalid literal for int() with base 10"

/-- One loop iteration body up to the `results.append`: download the
GeoTIFF, convert it to PNG, parse the year, upload to Cloudinary, and
build the descriptor.  Each failure carries the wrapper prefix the
corresponding service method adds when re-raising. -/
def acquire_date (env : PipelineEnv) (date : String) : Except String ImageResult :=
  match env.download date with
  | Except.error StepFailure.timeout =>
    Except.error "Download timed out after 300 seconds"
  | Except.error (StepFailure.fails m) =>
    Except.error ("Failed to download imagery: " ++ m)
  | Except.ok _ =>
    match env.convert date with
    | Except.error m => Except.error ("Failed to convert GeoTIFF: " ++ m)
    | Except.ok _ =>
      match yearOf date with
      | Except.error m => Except.error m
      | Except.ok year =>
        match env.upload date with
        | Except.error m => Except.error ("Failed to upload to Cloudinary: " ++ m)
        | Except.ok urls =>
          Except.ok { year := year, captureDate := date,
                      imageUrl := urls.original, optimizedUrl := urls.optimized,
                      thumbnailUrl := urls.thumbnail }

/-- The per-date loop over `dates_to_download`: `n` is the total date
count, `k` the number of dates already processed.  Returns the
accumulated descriptors (or the first failure, which discards the
partial descriptor list exactly as the code's local `results` variable
is discarded) together with the progress values committed along the
way. -/
def runLoop (env : PipelineEnv) (n : Nat) :
    List String → Nat → Except String (List ImageResult) × List Nat
  | [], _ => (Except.ok [], [])
  | d :: rest, k =>
    match acquire_date env d with
    | Except.error m => (Except.error m, [])
    | Except.ok r =>
      let p := loopProgress n (k + 1)
      match runLoop env n rest (k + 1) with
      | (Except.error m, ps) => (Except.error m, p :: ps)
      | (Except.ok rs, ps) => (Except.ok (r :: rs), p :: ps)

/-- One webhook call attempt by the orchestrator.  `bindsOk` records
whether the Python call binds to `send_webhook`'s parameters; when it
does not, `TypeError` is raised before any HTTP activity, caught by the
call-site `try/except`, and only logged. -/
structure WebhookAttempt where
  event : String
  url : String
  payloadKeys : List String
  bindsOk : Bool
  delivered : Bool
  requests : List HttpRequest

/-- The orchestrator's webhook call
`send_webhook(callback_url, payload, event=...)`: two positional
arguments plus the `event` keyword. -/
def attemptWebhook (env : PipelineEnv) (event url : String)
    (payloadKeys : List String) : WebhookAttempt :=
  if webhookCallBindsOk then
    let r := send_webhook env.webhookOutcome url payloadKeys
    { event := event, url := url, payloadKeys := payloadKeys,
      bindsOk := true, delivered := r.1, requests := r.2 }
  else
    { event := event, url := url, payloadKeys := payloadKeys,
      bindsOk := false, delivered := false, requests := [] }

/-- The payload keys of the `job.completed` webhook body. -/
def completedPayloadKeys : List String :=
  ["jobId", "status", "images", "aiAnalysis", "deliveredAt"]

/-- The payload keys of the `job.failed` webhook body. -/
def failedPayloadKeys : List String :=
  ["jobId", "status", "error", "deliveredAt"]

/-- The `except` branch of `process_imagery_job`: re-fetch the job (its
last committed state `last`), set FAILED and the error text, commit, and
attempt a `job.failed` webhook when a callback was supplied.
`completed_at` is not touched here. -/
def failRun (env : PipelineEnv) (committed : List JobRecord) (last : JobRecord)
    (m : String) (callback_url : Option String) :
    List JobRecord × List WebhookAttempt :=
  let failed := { last with status := JobStatus.failed, error_message := some m }
  (committed ++ [failed],
   match callback_url with
   | some url => [attemptWebhook env "job.failed" url failedPayloadKeys]
   | none => [])

/-- Model of `process_imagery_job`: the full background execution of one
job, returned as the list of committed snapshots in commit order
(starting from the freshly created QUEUED record) together with the
webhook call attempts.  Temp-file cleanup touches no job state and is
not represented. -/
def process_imagery_job (env : PipelineEnv) (job_id : String)
    (coordinates : String) (callback_url : Option String) :
    List JobRecord × List WebhookAttempt :=
  let s0 := initialJob
  let s1 := { s0 with status := JobStatus.processing, progress := 10 }
  match pySplitChar ',' coordinates.data with
  | [p1, p2] =>
    match pyFloat p1, pyFloat p2 with
    | some _, some _ =>
      let s2 := { s1 with progress := 20 }
      match check_availability env with
      | Except.error m => failRun env [s0, s1, s2] s2 m callback_url
      | Except.ok available_dates =>
        let dl := dates_to_download available_dates
        if dl.isEmpty then
          failRun env [s0, s1, s2] s2 "No imagery available for 2018-2025" callback_url
        else
          let n := dl.length
          match runLoop env n dl 0 with
          | (Except.error m, ps) =>
            let loopSnaps := ps.map fun p => { s2 with progress := p }
            failRun env ([s0, s1, s2] ++ loopSnaps) (loopSnaps.getLastD s2) m
              callback_url
          | (Except.ok results, ps) =>
            let loopSnaps := ps.map fun p => { s2 with progress := p }
            let s3 := { s2 with progress := 85 }
            let image_paths := dl.map fun d => job_id ++ "_" ++ d ++ ".png"
            let ai := analyze_with_gemini env.gemini image_paths
            let s4 : JobRecord :=
              { status := JobStatus.completed, progress := 100,
                error_message := none, imagery_data := some results,
                ai_analysis := some ai, completed_at_set := true }
            ([s0, s1, s2] ++ loopSnaps ++ [s3, s4],
             match callback_url with
             | some url => [attemptWebhook env "job.completed" url completedPayloadKeys]
             | none => [])
    | _, _ => failRun env [s0, s1] s1 "could not convert string to float" callback_url
  | _ => failRun env [s0, s1] s1 "not enough values to unpack" callback_url

/-- The last committed snapshot of a run (runs are never empty). -/
def finalRecord (run : List JobRecord × List WebhookAttempt) : JobRecord :=
  run.1.getLastD initialJob

/-! ## GeoTIFF conversion rescale
(`app/services.py`, `ImageryService.convert_geotiff_to_png`).  The three
read bands are modelled as the flattened list of their integer pixel
values; numpy `data.min()` / `data.max()` range over all of them. -/

/-- Minimum pixel value of the raster data. -/
def bandMin (l : List Int) : Int := l.foldl min (l.headD 0)

/-- Maximum pixel value of the raster data. -/
def bandMax (l : List Int) : Int := l.foldl max (l.headD 0)

/-- The denominator `data.max() - data.min()` of the rescale. -/
def rescaleDenom (l : List Int) : ℚ := (bandMax l : ℚ) - (bandMin l : ℚ)

/-- The rescale `(data - data.min()) / (data.max() - data.min()) * 255`
applied to one pixel, over exact rationals. -/
def rescalePixel (l : List Int) (x : Int) : ℚ :=
  ((x : ℚ) - (bandMin l : ℚ)) / rescaleDenom l * 255

/-- The normalization step of `convert_geotiff_to_png`: data already in
`uint8` is passed through, anything else is min-max rescaled. -/
def normalize_to_uint8 (dtypeIsUint8 : Bool) (l : List Int) : List ℚ :=
  if dtypeIsUint8 then l.map fun x => (x : ℚ)
  else l.map (rescalePixel l)

/-! ## Derived predicates and concrete runs used by the theorems. -/

/-- Whether the orchestrator's `lat, lon = map(float, coordinates.split(','))`
succeeds for a coordinate string. -/
def coordinatesParseOk (coordinates : String) : Bool :=
  match pySplitChar ',' coordinates.data with
  | [p1, p2] => (pyFloat p1).isSome && (pyFloat p2).isSome
  | _ => false

/-- Whether a job record carries a non-empty error text. -/
def errorNonempty (s : JobRecord) : Bool :=
  match s.error_message with
  | some m => !m.data.isEmpty
  | none => false

/-- A fully successful environment: the resolver output lists the two
scenario dates, every CLI/upload step succeeds, and Gemini answers with
a well-formed object. -/
def envHappy : PipelineEnv :=
  { availability := Except.ok "2018/01/01\n2020/06/15",
    download := fun _ => Except.ok (),
    convert := fun _ => Except.ok (),
    upload := fun d => Except.ok
      { original := "https://img.example/" ++ d,
        optimized := "https://opt.example/" ++ d,
        thumbnail := "https://thumb.example/" ++ d },
    gemini :=
      { fileExists := fun _ => true,
        call := Except.ok "\x7b\x7d",
        parse := fun _ => some (JValue.obj
          [("changes_detected", JValue.arr []),
           ("timeline", JValue.arr []),
           ("summary", JValue.str "steady development")]) },
    webhookOutcome := fun _ => HttpOutcome.status 200 }

/-- The scenario run: the spec's coordinate, no callback. -/
def runScenario : List JobRecord × List WebhookAttempt :=
  process_imagery_job envHappy "jobS" "37.7749,-122.4194" none

/-- A successful run with a callback URL supplied. -/
def runWithCallback : List JobRecord × List WebhookAttempt :=
  process_imagery_job envHappy "jobC" "37.7749,-122.4194"
    (some "https://example.com/hook")

/-- An environment whose resolver yields one date outside the 2018-2025
window. -/
def envNoWindow : PipelineEnv := { envHappy with availability := Except.ok "2016/05/01" }

/-- The run over `envNoWindow`, with a callback URL supplied. -/
def runNoWindow : List JobRecord × List WebhookAttempt :=
  process_imagery_job envNoWindow "jobN" "5.6,-0.2" (some "https://example.com/hook")

/-- The capture request of the spec's scenario, resolution 250. -/
def scenarioRequest250 : CaptureRequest :=
  { coordinates := "37.7749,-122.4194", locationName := "San Francisco",
    zoomLevel := 250 }

/-- The same request with a resolution inside the validated range. -/
def scenarioRequest18 : CaptureRequest :=
  { coordinates := "37.7749,-122.4194", locationName := "San Francisco",
    zoomLevel := 18 }

/-- A Gemini response wrapped in a JSON code fence. -/
def fencedResponseText : String :=
  "```json\n\x7b\"changes_detected\": [\"new building\"], \"timeline\": []\x7d\n```"

/-- The object the fenced response parses to: it misses `summary`. -/
def fencedKvs : List (String × JValue) :=
  [("changes_detected", JValue.arr [JValue.str "new building"]),
   ("timeline", JValue.arr [])]

/-- A Gemini environment whose response is wrapped in a JSON code fence
and parses to an object missing the `summary` key; the parser only
succeeds on the exact de-fenced text. -/
def envFenced : GeminiEnv :=
  { fileExists := fun _ => true,
    call := Except.ok fencedResponseText,
    parse := fun s =>
      if s = "\x7b\"changes_detected\": [\"new building\"], \"timeline\": []\x7d" then
        some (JValue.obj fencedKvs)
      else none }

/-- A settings value with a signing secret configured. -/
def settingsWithSecret : Settings := { WEBHOOK_SIGNING_SECRET := some "s3cret" }

/-- A PROCESSING snapshot with progress `p` (all non-terminal commits of
the orchestrator have this shape). -/
def procRec (p : Nat) : JobRecord :=
  { initialJob with status := JobStatus.processing, progress := p }

/-- The FAILED snapshot the exception handler commits over the last
committed state `last`. -/
def failedAfter (last : JobRecord) (m : String) : JobRecord :=
  { last with status := JobStatus.failed, error_message := some m }

/-- The COMPLETED snapshot. -/
def completedRec (results : List ImageResult) (ai : List (String × JValue)) :
    JobRecord :=
  JobRecord.mk JobStatus.completed 100 none (some results) (some ai) true

/-- The facts the theorems need about the loop's committed progress
values: they are sorted, lie in `[20, 80]`, and are bounded by the last
committed value. -/
def psBounds (ps : List Nat) : Prop :=
  ps.Pairwise (· ≤ ·) ∧ (∀ p ∈ ps, 20 ≤ p ∧ p ≤ 80) ∧
  (∀ p ∈ ps, p ≤ ps.getLastD 20) ∧ 20 ≤ ps.getLastD 20 ∧ ps.getLastD 20 ≤ 80

/-- A mixed availability output: noise lines, two distinct dates on one
line, and a duplicated date. -/
def availabilitySample : String := "noise\n2020/01/02 x 2018/05/06\n2020/01/02"

/-! ## Helper lemmas. -/

theorem charListLe_total : ∀ a b : List Char, charListLe a b = true ∨ charListLe b a = true
  | [], _ => by left; rfl
  | _ :: _, [] => by right; rfl
  | a :: as, b :: bs => by
    by_cases h1 : a.toNat < b.toNat
    · left; simp [charListLe, h1]
    · by_cases h2 : b.toNat < a.toNat
      · right; simp [charListLe, h1, h2]
      · rcases charListLe_total as bs with h | h
        · left; simpa [charListLe, h1, h2] using h
        · right; simpa [charListLe, h1, h2] using h

theorem charListLe_trans : ∀ a b c : List Char,
    charListLe a b = true → charListLe b c = true → charListLe a c = true
  | [], _, _ => by intros; rfl
  | _ :: _, [], _ => by simp [charListLe]
  | _ :: _, _ :: _, [] => by simp [charListLe]
  | a :: as, b :: bs, c :: cs => by
    intro hab hbc
    simp only [charListLe] at hab hbc ⊢
    by_cases h1 : a.toNat < b.toNat
    · by_cases h2 : b.toNat < c.toNat
      · have hac : a.toNat < c.toNat := Nat.lt_trans h1 h2
        simp [hac]
      · by_cases h3 : c.toNat < b.toNat
        · simp [h2, h3] at hbc
        · have hbc' : b.toNat = c.toNat :=
            Nat.le_antisymm (Nat.not_lt.mp h3) (Nat.not_lt.mp h2)
          have hac : a.toNat < c.toNat := hbc' ▸ h1
          simp [hac]
    · by_cases h2 : b.toNat < a.toNat
      · simp [h1, h2] at hab
      · have hab' : a.toNat = b.toNat :=
          Nat.le_antisymm (Nat.not_lt.mp h2) (Nat.not_lt.mp h1)
        by_cases h3 : b.toNat < c.toNat
        · have hac : a.toNat < c.toNat := hab' ▸ h3
          simp [hac]
        · by_cases h4 : c.toNat < b.toNat
          · simp [h3, h4] at hbc
          · have hbc' : b.toNat = c.toNat :=
              Nat.le_antisymm (Nat.not_lt.mp h4) (Nat.not_lt.mp h3)
            have hnac : ¬ a.toNat < c.toNat := by omega
            have hnca : ¬ c.toNat < a.toNat := by omega
            simp only [hnac, hnca, if_neg, if_false]
            have h5 : charListLe as bs = true := by simpa [h1, h2] using hab
            have h6 : charListLe bs cs = true := by simpa [h3, h4] using hbc
            simpa using charListLe_trans as bs cs h5 h6

instance : IsTotal String strLe := ⟨fun a b => charListLe_total a.data b.data⟩

instance : IsTrans String strLe :=
  ⟨fun a b c hab hbc => charListLe_trans a.data b.data c.data hab hbc⟩

theorem foldl_min_const {c : Int} :
    ∀ (t : List Int) (a : Int), (∀ x ∈ t, x = c) → a = c → t.foldl min a = c
  | [], a, _, ha => ha
  | x :: xs, a, hall, ha => by
    have hx : x = c := hall x (List.mem_cons_self x xs)
    refine foldl_min_const xs (min a x) (fun y hy => hall y (List.mem_cons_of_mem x hy)) ?_
    simp [ha, hx]

theorem foldl_max_const {c : Int} :
    ∀ (t : List Int) (a : Int), (∀ x ∈ t, x = c) → a = c → t.foldl max a = c
  | [], a, _, ha => ha
  | x :: xs, a, hall, ha => by
    have hx : x = c := hall x (List.mem_cons_self x xs)
    refine foldl_max_const xs (max a x) (fun y hy => hall y (List.mem_cons_of_mem x hy)) ?_
    simp [ha, hx]

theorem bandMin_const {c : Int} {l : List Int} (hne : l ≠ [])
    (hconst : ∀ x ∈ l, x = c) : bandMin l = c := by
  cases l with
  | nil => exact absurd rfl hne
  | cons d t =>
    have hd : d = c := hconst d (List.mem_cons_self d t)
    unfold bandMin
    exact foldl_min_const _ _ hconst (by simp [hd])

theorem bandMax_const {c : Int} {l : List Int} (hne : l ≠ [])
    (hconst : ∀ x ∈ l, x = c) : bandMax l = c := by
  cases l with
  | nil => exact absurd rfl hne
  | cons d t =>
    have hd : d = c := hconst d (List.mem_cons_self d t)
    unfold bandMax
    exact foldl_max_const _ _ hconst (by simp [hd])

theorem sendWebhookAux_headers_empty (outcome : Nat → HttpOutcome) (url : String)
    (pk : List String) :
    ∀ (rem attempt : Nat),
      ((sendWebhookAux outcome url pk attempt rem).2.all fun r => r.headers.isEmpty) = true
  | 0, _ => rfl
  | rem + 1, attempt => by
    have ih := sendWebhookAux_headers_empty outcome url pk rem (attempt + 1)
    simp only [sendWebhookAux]
    cases outcome attempt with
    | status code =>
      by_cases h : code < 300
      · simp [h]
      · simpa [h] using ih
    | exc m =>
      by_cases h : attempt = webhookMaxRetries - 1
      · simp [h]
      · simpa [h] using ih

theorem normChar_digit {a : Char} (h : a.isDigit = true) :
    (if a = '/' then '-' else a).isDigit = true := by
  by_cases he : a = '/'
  · rw [he] at h
    exact absurd h (by decide)
  · rw [if_neg he]
    exact h

theorem normalizeDateToken_wellformed (l : List Char) (h : dateTokenAt l = true) :
    isNormalizedDate (normalizeDateToken (l.take 10)) = true := by
  match l, h with
  | a :: b :: c :: d :: s1 :: e :: f :: s2 :: g :: hh :: rest, h =>
    simp only [dateTokenAt, Bool.and_eq_true, decide_eq_true_eq] at h
    obtain ⟨⟨⟨⟨⟨⟨⟨⟨⟨ha, hb⟩, hc⟩, hd⟩, hs1⟩, he⟩, hf⟩, hs2⟩, hg⟩, hh2⟩ := h
    subst hs1
    subst hs2
    have htake : (a :: b :: c :: d :: '/' :: e :: f :: '/' :: g :: hh :: rest).take 10 =
        [a, b, c, d, '/', e, f, '/', g, hh] := rfl
    rw [htake]
    simp only [normalizeDateToken, isNormalizedDate, List.map]
    simp [normChar_digit, ha, hb, hc, hd, he, hf, hg, hh2]

theorem findallDatesAux_wellformed : ∀ (fuel : Nat) (l : List Char),
    ((findallDatesAux fuel l).map normalizeDateToken).all isNormalizedDate = true
  | 0, _ => rfl
  | _ + 1, [] => rfl
  | fuel + 1, c :: cs => by
    by_cases hd : dateTokenAt (c :: cs) = true
    · simp only [findallDatesAux, if_pos hd, List.map_cons, List.all_cons,
        normalizeDateToken_wellformed _ hd, Bool.true_and]
      exact findallDatesAux_wellformed fuel _
    · simp only [findallDatesAux, if_neg hd]
      exact findallDatesAux_wellformed fuel cs

theorem normalizedMatches_wellformed (out : String) :
    (normalizedMatches out).all isNormalizedDate = true := by
  rw [List.all_eq_true]
  intro s hs
  rw [normalizedMatches, List.mem_map] at hs
  obtain ⟨m, hm, rfl⟩ := hs
  rw [List.mem_flatMap] at hm
  obtain ⟨line, _, hmline⟩ := hm
  have hall := findallDatesAux_wellformed line.length line
  rw [List.all_eq_true] at hall
  exact hall _ (List.mem_map_of_mem normalizeDateToken hmline)

theorem isSome_of_isNone_false {o : Option JValue} (h : o.isNone = false) :
    o.isSome = true := by
  cases o with
  | none => exact absurd h (by decide)
  | some _ => rfl

theorem hasRequiredKeys_of_no_missing (kvs : List (String × JValue))
    (h : (requiredKeys.filter fun k => (List.lookup k kvs).isNone).isEmpty = true) :
    hasRequiredKeys kvs = true := by
  rw [List.isEmpty_iff, List.filter_eq_nil_iff] at h
  have h1 : (List.lookup "changes_detected" kvs).isNone = false := by
    have := h "changes_detected" (by simp [requiredKeys])
    simpa using this
  have h2 : (List.lookup "timeline" kvs).isNone = false := by
    have := h "timeline" (by simp [requiredKeys])
    simpa using this
  have h3 : (List.lookup "summary" kvs).isNone = false := by
    have := h "summary" (by simp [requiredKeys])
    simpa using this
  unfold hasRequiredKeys hasKey
  rw [isSome_of_isNone_false h1, isSome_of_isNone_false h2, isSome_of_isNone_false h3]
  rfl

theorem hasRequiredKeys_analyzeParsed (t : String) (p : Option JValue) :
    hasRequiredKeys (analyzeParsed t p) = true := by
  cases p with
  | none => rfl
  | some v =>
    cases v with
    | obj kvs =>
      simp only [analyzeParsed]
      by_cases hmiss : ((requiredKeys.filter fun k => (List.lookup k kvs).isNone).isEmpty) = true
      · rw [if_pos hmiss]
        by_cases hlen : (jvHasLen ((List.lookup "changes_detected" kvs).getD JValue.null) &&
            jvHasLen ((List.lookup "timeline" kvs).getD JValue.null) &&
            jvHasLen ((List.lookup "summary" kvs).getD JValue.null)) = true
        · rw [if_pos hlen]
          exact hasRequiredKeys_of_no_missing kvs hmiss
        · rw [if_neg hlen]
          rfl
      · rw [if_neg hmiss]
        rfl
    | null => rfl
    | bool b => rfl
    | num n => rfl
    | str s => rfl
    | arr elems => rfl

theorem sortedDedup_perm (l : List String) : (sortedDedup l).Perm l.dedup :=
  List.perm_insertionSort strLe l.dedup

theorem sortedDedup_eq_nil_iff (l : List String) : sortedDedup l = [] ↔ l = [] := by
  constructor
  · intro h
    have hp := sortedDedup_perm l
    rw [h] at hp
    exact (List.dedup_eq_nil l).mp hp.symm.eq_nil
  · intro h
    rw [h]
    rfl

theorem append_ne_empty_left (p m : String) (hp : p ≠ "") : p ++ m ≠ "" := by
  intro h
  apply hp
  have hd : p.data ++ m.data = [] := congrArg String.data h
  have hp0 : p.data = [] := (List.append_eq_nil.mp hd).1
  cases p with
  | mk d =>
    cases hp0
    rfl

theorem string_ne_empty_of_data_ne {m : String} (h : m ≠ "") : m.data ≠ [] := by
  intro hd
  apply h
  cases m with
  | mk d =>
    cases hd
    rfl

theorem yearOf_error_eq (d : String) (m : String) (h : yearOf d = Except.error m) :
    m = "invalid literal for int() with base 10" := by
  simp only [yearOf] at h
  split at h
  · exact Except.noConfusion h
  · exact (Except.error.inj h).symm

theorem check_availability_error_ne_empty (env : PipelineEnv) (m : String)
    (h : check_availability env = Except.error m) : m ≠ "" := by
  unfold check_availability at h
  cases hav : env.availability with
  | error f =>
    cases f with
    | timeout =>
      rw [hav] at h
      have hm := Except.error.inj h
      subst hm
      decide
    | fails msg =>
      rw [hav] at h
      have hm := Except.error.inj h
      subst hm
      exact append_ne_empty_left _ _ (by decide)
  | ok out =>
    rw [hav] at h
    have h2 : (match parse_availability_output out with
        | Except.error e => Except.error ("Failed to check availability: " ++ e)
        | Except.ok ds => Except.ok ds) = Except.error m := h
    cases hp : parse_availability_output out with
    | error msg =>
      rw [hp] at h2
      have hm := Except.error.inj h2
      subst hm
      exact append_ne_empty_left _ _ (by decide)
    | ok ds =>
      rw [hp] at h2
      exact Except.noConfusion h2

theorem acquire_date_error_ne_empty (env : PipelineEnv) (d : String) (m : String)
    (h : acquire_date env d = Except.error m) : m ≠ "" := by
  unfold acquire_date at h
  cases hdl : env.download d with
  | error f =>
    cases f with
    | timeout =>
      rw [hdl] at h
      have hm := Except.error.inj h
      subst hm
      decide
    | fails msg =>
      rw [hdl] at h
      have hm := Except.error.inj h
      subst hm
      exact append_ne_empty_left _ _ (by decide)
  | ok u =>
    rw [hdl] at h
    have h2 : (match env.convert d with
        | Except.error e => Except.error ("Failed to convert GeoTIFF: " ++ e)
        | Except.ok _ =>
          match yearOf d with
          | Except.error e => Except.error e
          | Except.ok year =>
            match env.upload d with
            | Except.error e => Except.error ("Failed to upload to Cloudinary: " ++ e)
            | Except.ok urls =>
              Except.ok (ImageResult.mk year d urls.original urls.optimized
                urls.thumbnail)) = Except.error m := h
    cases hcv : env.convert d with
    | error msg =>
      rw [hcv] at h2
      have hm := Except.error.inj h2
      subst hm
      exact append_ne_empty_left _ _ (by decide)
    | ok u2 =>
      rw [hcv] at h2
      have h3 : (match yearOf d with
          | Except.error e => Except.error e
          | Except.ok year =>
            match env.upload d with
            | Except.error e => Except.error ("Failed to upload to Cloudinary: " ++ e)
            | Except.ok urls =>
              Except.ok (ImageResult.mk year d urls.original urls.optimized
                urls.thumbnail)) = Except.error m := h2
      cases hy : yearOf d with
      | error msg =>
        rw [hy] at h3
        have hm := Except.error.inj h3
        subst hm
        rw [yearOf_error_eq d _ hy]
        decide
      | ok y =>
        rw [hy] at h3
        have h4 : (match env.upload d with
            | Except.error e => Except.error ("Failed to upload to Cloudinary: " ++ e)
            | Except.ok urls =>
              Except.ok (ImageResult.mk y d urls.original urls.optimized
                urls.thumbnail)) = Except.error m := h3
        cases hup : env.upload d with
        | error msg =>
          rw [hup] at h4
          have hm := Except.error.inj h4
          subst hm
          exact append_ne_empty_left _ _ (by decide)
        | ok urls =>
          rw [hup] at h4
          exact Except.noConfusion h4

theorem runLoop_error_ne_empty (env : PipelineEnv) (n : Nat) :
    ∀ (ds : List String) (k : Nat) (m : String) (ps : List Nat),
      runLoop env n ds k = (Except.error m, ps) → m ≠ ""
  | [], _, _, _ => by
    intro h
    unfold runLoop at h
    cases h
  | d :: rest, k, m, ps => by
    intro h
    unfold runLoop at h
    cases hacq : acquire_date env d with
    | error msg =>
      rw [hacq] at h
      cases h
      exact acquire_date_error_ne_empty env d _ hacq
    | ok r =>
      rw [hacq] at h
      cases hrest : runLoop env n rest (k + 1) with
      | mk fst snd =>
        rw [hrest] at h
        cases fst with
        | error m2 =>
          cases h
          exact runLoop_error_ne_empty env n rest (k + 1) _ _ hrest
        | ok rs => cases h

theorem loopProgress_eq (n k : Nat) : loopProgress n k = 20 + (60 * k) / n := by
  unfold loopProgress pyInt
  have hq : (0 : ℚ) ≤ 20 + (k : ℚ) * ((60 : ℚ) / (n : ℚ)) := by positivity
  rw [if_pos hq]
  have h1 : (k : ℚ) * ((60 : ℚ) / (n : ℚ)) = ((60 * k : ℕ) : ℚ) / ((n : ℕ) : ℚ) := by
    push_cast
    ring
  rw [h1, show ((20 : ℚ)) = ((20 : ℤ) : ℚ) by norm_num, Int.floor_int_add,
    Rat.floor_natCast_div_natCast]
  norm_cast

theorem runLoop_snd_eq (env : PipelineEnv) (n : Nat) :
    ∀ (ds : List String) (k : Nat), ∃ m, m ≤ ds.length ∧
      (runLoop env n ds k).2 = (List.range' (k + 1) m).map (loopProgress n)
  | [], _ => ⟨0, Nat.le_refl 0, by simp [runLoop]⟩
  | d :: rest, k => by
    obtain ⟨m, hm, heq⟩ := runLoop_snd_eq env n rest (k + 1)
    cases hacq : acquire_date env d with
    | error msg => exact ⟨0, Nat.zero_le _, by simp [runLoop, hacq]⟩
    | ok r =>
      refine ⟨m + 1, by simpa using Nat.succ_le_succ hm, ?_⟩
      simp only [runLoop, hacq]
      rw [List.range'_succ, List.map_cons]
      cases hrest : runLoop env n rest (k + 1) with
      | mk fst snd =>
        rw [hrest] at heq
        cases fst <;> simpa using heq

theorem loopProgress_le_80 (n j : Nat) (h : j ≤ n) : loopProgress n j ≤ 80 := by
  rw [loopProgress_eq]
  have hdiv : (60 * j) / n ≤ 60 := by
    cases n with
    | zero => simp
    | succ n2 =>
      have h1 : 60 * j ≤ 60 * (n2 + 1) := Nat.mul_le_mul_left 60 h
      have h2 : (60 * j) / (n2 + 1) ≤ (60 * (n2 + 1)) / (n2 + 1) :=
        Nat.div_le_div_right h1
      rwa [Nat.mul_div_cancel _ (Nat.succ_pos n2)] at h2
  omega

theorem loopProgress_mono (n : Nat) {j j2 : Nat} (h : j ≤ j2) :
    loopProgress n j ≤ loopProgress n j2 := by
  rw [loopProgress_eq, loopProgress_eq]
  exact Nat.add_le_add_left (Nat.div_le_div_right (Nat.mul_le_mul_left 60 h)) 20

theorem loopProgress_ge_20 (n j : Nat) : 20 ≤ loopProgress n j := by
  rw [loopProgress_eq]
  exact Nat.le_add_right 20 _

theorem getLastD_map_range' (f : Nat → Nat) :
    ∀ (m s d : Nat), ((List.range' s m).map f).getLastD d =
      if m = 0 then d else f (s + m - 1)
  | 0, _, _ => rfl
  | m + 1, s, d => by
    rw [List.range'_succ s m 1, List.map_cons]
    cases m with
    | zero => simp
    | succ m2 =>
      rw [List.getLastD_cons, getLastD_map_range' f (m2 + 1) (s + 1) (f s)]
      simp only [Nat.succ_ne_zero, if_false]
      exact congrArg f (by omega)

theorem runLoop_ps_shape (env : PipelineEnv) (ds : List String) (res : Except String (List ImageResult))
    (ps : List Nat) (h : runLoop env ds.length ds 0 = (res, ps)) :
    ∃ m, m ≤ ds.length ∧ ps = (List.range' 1 m).map (loopProgress ds.length) := by
  obtain ⟨m, hm, heq⟩ := runLoop_snd_eq env ds.length ds 0
  rw [h] at heq
  exact ⟨m, hm, heq⟩

theorem runLoop_progress_bounds (env : PipelineEnv) (ds : List String)
    (res : Except String (List ImageResult)) (ps : List Nat)
    (h : runLoop env ds.length ds 0 = (res, ps)) :
    ∀ p ∈ ps, 20 ≤ p ∧ p ≤ 80 := by
  obtain ⟨m, hm, heq⟩ := runLoop_ps_shape env ds res ps h
  intro p hp
  rw [heq] at hp
  obtain ⟨j, hj, rfl⟩ := List.mem_map.mp hp
  rw [List.mem_range'_1] at hj
  exact ⟨loopProgress_ge_20 _ _, loopProgress_le_80 _ _ (by omega)⟩

theorem runLoop_progress_sorted (env : PipelineEnv) (ds : List String)
    (res : Except String (List ImageResult)) (ps : List Nat)
    (h : runLoop env ds.length ds 0 = (res, ps)) :
    ps.Pairwise (· ≤ ·) := by
  obtain ⟨m, hm, heq⟩ := runLoop_ps_shape env ds res ps h
  rw [heq, List.pairwise_map]
  exact (List.pairwise_lt_range' 1 m).imp fun hlt => loopProgress_mono _ (Nat.le_of_lt hlt)

theorem runLoop_progress_getLastD (env : PipelineEnv) (ds : List String)
    (res : Except String (List ImageResult)) (ps : List Nat)
    (h : runLoop env ds.length ds 0 = (res, ps)) :
    (20 ≤ ps.getLastD 20 ∧ ps.getLastD 20 ≤ 80) ∧ ∀ p ∈ ps, p ≤ ps.getLastD 20 := by
  obtain ⟨m, hm, heq⟩ := runLoop_ps_shape env ds res ps h
  cases m with
  | zero =>
    have hps : ps = [] := by simpa using heq
    subst hps
    exact ⟨⟨by decide, by decide⟩, fun p hp => absurd hp (by simp)⟩
  | succ m2 =>
    have hlast : ps.getLastD 20 = loopProgress ds.length (m2 + 1) := by
      rw [heq, getLastD_map_range' (loopProgress ds.length) (m2 + 1) 1 20,
        if_neg (Nat.succ_ne_zero m2)]
      exact congrArg _ (by omega)
    rw [hlast]
    refine ⟨⟨loopProgress_ge_20 _ _, loopProgress_le_80 _ _ (by omega)⟩, fun p hp => ?_⟩
    rw [heq] at hp
    obtain ⟨j, hj, rfl⟩ := List.mem_map.mp hp
    rw [List.mem_range'_1] at hj
    exact loopProgress_mono _ (by omega)

theorem loopFail_last_fields (ps : List Nat) (s2 : JobRecord) :
    ((ps.map fun p => { s2 with progress := p }).getLastD s2).progress =
      ps.getLastD s2.progress ∧
    ((ps.map fun p => { s2 with progress := p }).getLastD s2).completed_at_set =
      s2.completed_at_set ∧
    ((ps.map fun p => { s2 with progress := p }).getLastD s2).error_message =
      s2.error_message ∧
    ((ps.map fun p => { s2 with progress := p }).getLastD s2).imagery_data =
      s2.imagery_data := by
  rw [List.getLastD_eq_getLast?, List.getLastD_eq_getLast? s2.progress ps,
    List.getLast?_map]
  cases hl : ps.getLast? with
  | none => exact ⟨rfl, rfl, rfl, rfl⟩
  | some p => exact ⟨rfl, rfl, rfl, rfl⟩

/-- The three C2 record invariants, as amended. -/
def jobInvariants (s : JobRecord) : Prop :=
  (s.progress = 100 ↔ s.status = JobStatus.completed) ∧
  (errorNonempty s = true ↔ s.status = JobStatus.failed) ∧
  (s.completed_at_set = true ↔ s.status = JobStatus.completed)

theorem jobInvariants_nonterminal {s : JobRecord}
    (hst : s.status = JobStatus.processing ∨ s.status = JobStatus.queued)
    (hp : s.progress < 100) (he : s.error_message = none)
    (hc : s.completed_at_set = false) : jobInvariants s := by
  have h1 : s.status ≠ JobStatus.completed := by
    rcases hst with h | h <;> rw [h] <;> decide
  have h2 : s.status ≠ JobStatus.failed := by
    rcases hst with h | h <;> rw [h] <;> decide
  refine ⟨⟨fun hh => absurd hh (by omega), fun hh => absurd hh h1⟩,
    ⟨fun hh => ?_, fun hh => absurd hh h2⟩,
    ⟨fun hh => ?_, fun hh => absurd hh h1⟩⟩
  · exfalso
    unfold errorNonempty at hh
    rw [he] at hh
    exact Bool.noConfusion hh
  · rw [hc] at hh
    exact absurd hh (by decide)

theorem jobInvariants_failed {last : JobRecord} {m : String} (hm : m ≠ "")
    (hp : last.progress < 100) (hc : last.completed_at_set = false) :
    jobInvariants { last with status := JobStatus.failed, error_message := some m } := by
  refine ⟨⟨fun hh => ?_, fun hh => ?_⟩, ⟨fun _ => rfl, fun _ => ?_⟩,
    ⟨fun hh => ?_, fun hh => ?_⟩⟩
  · exact absurd (show last.progress = 100 from hh) (by omega)
  · exact absurd (show JobStatus.failed = JobStatus.completed from hh) (by decide)
  · show (!m.data.isEmpty) = true
    cases hdata : m.data with
    | nil => exact absurd hdata (string_ne_empty_of_data_ne hm)
    | cons c cs => rfl
  · have h2 : last.completed_at_set = true := hh
    rw [hc] at h2
    exact absurd h2 (by decide)
  · exact absurd (show JobStatus.failed = JobStatus.completed from hh) (by decide)

theorem jobInvariants_completed (results : List ImageResult)
    (ai : List (String × JValue)) :
    jobInvariants (JobRecord.mk JobStatus.completed 100 none (some results)
      (some ai) true) := by
  refine ⟨⟨fun _ => rfl, fun _ => rfl⟩, ⟨fun hh => ?_, fun hh => ?_⟩,
    ⟨fun _ => rfl, fun _ => rfl⟩⟩
  · exact absurd (show (false : Bool) = true from hh) (by decide)
  · exact absurd (show JobStatus.completed = JobStatus.failed from hh) (by decide)

theorem psBounds_of_runLoop (env : PipelineEnv) (ds : List String)
    (res : Except String (List ImageResult)) (ps : List Nat)
    (h : runLoop env ds.length ds 0 = (res, ps)) : psBounds ps := by
  obtain ⟨⟨hge, hle⟩, hlast⟩ := runLoop_progress_getLastD env ds res ps h
  exact ⟨runLoop_progress_sorted env ds res ps h,
    runLoop_progress_bounds env ds res ps h, hlast, hge, hle⟩

/-- Every run of `process_imagery_job` commits one of four trace shapes:
failure before the loop starts (with a non-empty error over progress 10
or 20), failure inside the loop (non-empty error over the last committed
loop progress), or the successful trace ending at COMPLETED/100. -/
theorem process_trace_characterization (env : PipelineEnv)
    (job_id coordinates : String) (cb : Option String) :
    (∃ m, m ≠ "" ∧ (process_imagery_job env job_id coordinates cb).1 =
      [initialJob, procRec 10, failedAfter (procRec 10) m]) ∨
    (∃ m, m ≠ "" ∧ (process_imagery_job env job_id coordinates cb).1 =
      [initialJob, procRec 10, procRec 20, failedAfter (procRec 20) m]) ∨
    (∃ m ps, m ≠ "" ∧ psBounds ps ∧
      (process_imagery_job env job_id coordinates cb).1 =
        ([initialJob, procRec 10, procRec 20] ++ ps.map procRec) ++
          [failedAfter ((ps.map procRec).getLastD (procRec 20)) m]) ∨
    (∃ ps results ai, psBounds ps ∧
      (process_imagery_job env job_id coordinates cb).1 =
        [initialJob, procRec 10, procRec 20] ++ ps.map procRec ++
          [procRec 85, completedRec results ai]) := by
  cases hsplit : pySplitChar ',' coordinates.data with
  | nil =>
    left
    refine ⟨"not enough values to unpack", by decide, ?_⟩
    simp only [process_imagery_job, hsplit, failRun]
    rfl
  | cons p1 rest =>
    cases rest with
    | nil =>
      left
      refine ⟨"not enough values to unpack", by decide, ?_⟩
      simp only [process_imagery_job, hsplit, failRun]
      rfl
    | cons p2 rest2 =>
      cases rest2 with
      | cons x xs =>
        left
        refine ⟨"not enough values to unpack", by decide, ?_⟩
        simp only [process_imagery_job, hsplit, failRun]
        rfl
      | nil =>
        cases hpf1 : pyFloat p1 with
        | none =>
          left
          refine ⟨"could not convert string to float", by decide, ?_⟩
          simp only [process_imagery_job, hsplit, hpf1, failRun]
          rfl
        | some q1 =>
          cases hpf2 : pyFloat p2 with
          | none =>
            left
            refine ⟨"could not convert string to float", by decide, ?_⟩
            simp only [process_imagery_job, hsplit, hpf1, hpf2, failRun]
            rfl
          | some q2 =>
            cases hav : check_availability env with
            | error m =>
              right; left
              refine ⟨m, check_availability_error_ne_empty env m hav, ?_⟩
              simp only [process_imagery_job, hsplit, hpf1, hpf2, hav, failRun]
              rfl
            | ok ds =>
              by_cases hdl : (dates_to_download ds).isEmpty = true
              · right; left
                refine ⟨"No imagery available for 2018-2025", by decide, ?_⟩
                simp only [process_imagery_job, hsplit, hpf1, hpf2, hav, hdl,
                  if_true, failRun]
                rfl
              · cases hloop : runLoop env (dates_to_download ds).length
                    (dates_to_download ds) 0 with
                | mk res ps =>
                  cases res with
                  | error m =>
                    right; right; left
                    refine ⟨m, ps,
                      runLoop_error_ne_empty env _ _ 0 m ps hloop,
                      psBounds_of_runLoop env _ _ ps hloop, ?_⟩
                    simp only [process_imagery_job, hsplit, hpf1, hpf2, hav,
                      hdl, Bool.false_eq_true, if_false, hloop, failRun]
                    rfl
                  | ok results =>
                    right; right; right
                    refine ⟨ps, results,
                      analyze_with_gemini env.gemini
                        ((dates_to_download ds).map fun d =>
                          job_id ++ "_" ++ d ++ ".png"),
                      psBounds_of_runLoop env _ _ ps hloop, ?_⟩
                    simp only [process_imagery_job, hsplit, hpf1, hpf2, hav,
                      hdl, Bool.false_eq_true, if_false, hloop]
                    rfl

/-! ## Claim theorems. -/

/-- C2 counterexample: the failure path of `process_imagery_job` never
sets `completed_at`, so a FAILED job (here: resolver yields only an
out-of-window date) violates the claimed `completed_at is set iff status
is COMPLETED or FAILED`. -/
theorem c2_counterexample_failed_no_completed_at :
    (finalRecord runNoWindow).status = JobStatus.failed ∧
    ¬ ((finalRecord runNoWindow).completed_at_set = true ↔
       ((finalRecord runNoWindow).status = JobStatus.completed ∨
        (finalRecord runNoWindow).status = JobStatus.failed)) :=
  ⟨rfl, fun hiff => Bool.noConfusion (hiff.mpr (Or.inr rfl))⟩

/-- C2 as amended: at every committed point of a job's lifetime,
`progress = 100` iff the status is COMPLETED, the error text is
non-empty iff the status is FAILED, and `completed_at` is set iff the
status is COMPLETED (the code does not set `completed_at` on FAILED). -/
theorem c2_amended_invariants (env : PipelineEnv) (job_id coordinates : String)
    (cb : Option String) (s : JobRecord)
    (hs : s ∈ (process_imagery_job env job_id coordinates cb).1) :
    (s.progress = 100 ↔ s.status = JobStatus.completed) ∧
    (errorNonempty s = true ↔ s.status = JobStatus.failed) ∧
    (s.completed_at_set = true ↔ s.status = JobStatus.completed) := by
  rcases process_trace_characterization env job_id coordinates cb with
    ⟨m, hm, htr⟩ | ⟨m, hm, htr⟩ | ⟨m, ps, hm, hb, htr⟩ | ⟨ps, results, ai, hb, htr⟩ <;>
    rw [htr] at hs
  · simp only [List.mem_cons, List.not_mem_nil, or_false] at hs
    rcases hs with rfl | rfl | rfl
    · exact jobInvariants_nonterminal (Or.inr rfl) (by decide) rfl rfl
    · exact jobInvariants_nonterminal (Or.inl rfl) (by decide) rfl rfl
    · exact jobInvariants_failed hm (by decide) rfl
  · simp only [List.mem_cons, List.not_mem_nil, or_false] at hs
    rcases hs with rfl | rfl | rfl | rfl
    · exact jobInvariants_nonterminal (Or.inr rfl) (by decide) rfl rfl
    · exact jobInvariants_nonterminal (Or.inl rfl) (by decide) rfl rfl
    · exact jobInvariants_nonterminal (Or.inl rfl) (by decide) rfl rfl
    · exact jobInvariants_failed hm (by decide) rfl
  · simp only [List.mem_append, List.mem_cons, List.mem_map,
      List.not_mem_nil, or_false] at hs
    rcases hs with ((rfl | rfl | rfl) | ⟨p, hp, rfl⟩) | rfl
    · exact jobInvariants_nonterminal (Or.inr rfl) (by decide) rfl rfl
    · exact jobInvariants_nonterminal (Or.inl rfl) (by decide) rfl rfl
    · exact jobInvariants_nonterminal (Or.inl rfl) (by decide) rfl rfl
    · have hple := (hb.2.1 p hp).2
      exact jobInvariants_nonterminal (Or.inl rfl) (show p < 100 by omega) rfl rfl
    · have hf := loopFail_last_fields ps (procRec 20)
      have hprog : ((ps.map procRec).getLastD (procRec 20)).progress =
          ps.getLastD 20 := hf.1
      have hca : ((ps.map procRec).getLastD (procRec 20)).completed_at_set =
          false := hf.2.1
      have hle := hb.2.2.2.2
      exact jobInvariants_failed hm (by omega) hca
  · simp only [List.mem_append, List.mem_cons, List.mem_map,
      List.not_mem_nil, or_false] at hs
    rcases hs with ((rfl | rfl | rfl) | ⟨p, hp, rfl⟩) | rfl | rfl
    · exact jobInvariants_nonterminal (Or.inr rfl) (by decide) rfl rfl
    · exact jobInvariants_nonterminal (Or.inl rfl) (by decide) rfl rfl
    · exact jobInvariants_nonterminal (Or.inl rfl) (by decide) rfl rfl
    · have hple := (hb.2.1 p hp).2
      exact jobInvariants_nonterminal (Or.inl rfl) (show p < 100 by omega) rfl rfl
    · exact jobInvariants_nonterminal (Or.inl rfl) (by decide) rfl rfl
    · exact jobInvariants_completed results ai

/-- C9: the committed progress values of any single job form a
non-decreasing sequence - for any two commit points t1 ≤ t2 the progress
observed at t2 is at least the progress observed at t1, so a polling
client never observes progress regression. -/
theorem c9_progress_monotone (env : PipelineEnv) (job_id coordinates : String)
    (cb : Option String) :
    ((process_imagery_job env job_id coordinates cb).1.map
      JobRecord.progress).Sorted (· ≤ ·) := by
  rcases process_trace_characterization env job_id coordinates cb with
    ⟨m, hm, htr⟩ | ⟨m, hm, htr⟩ | ⟨m, ps, hm, hb, htr⟩ | ⟨ps, results, ai, hb, htr⟩ <;>
    rw [htr]
  · exact (by decide : ([0, 10, 10] : List Nat).Sorted (· ≤ ·))
  · exact (by decide : ([0, 10, 20, 20] : List Nat).Sorted (· ≤ ·))
  · have hmap : (ps.map procRec).map JobRecord.progress = ps := by
      rw [List.map_map]
      exact List.map_id ps
    have hprog : (failedAfter ((ps.map procRec).getLastD (procRec 20)) m).progress =
        ps.getLastD 20 := (loopFail_last_fields ps (procRec 20)).1
    simp only [List.map_append, List.map_cons, List.map_nil, hmap, hprog]
    show List.Pairwise (· ≤ ·) ((([0, 10, 20] : List Nat) ++ ps) ++ [ps.getLastD 20])
    rw [List.pairwise_append]
    refine ⟨?_, List.pairwise_singleton _ _, ?_⟩
    · rw [List.pairwise_append]
      refine ⟨by decide, hb.1, ?_⟩
      intro a ha b hb2
      have h20 := (hb.2.1 b hb2).1
      simp only [List.mem_cons, List.not_mem_nil, or_false] at ha
      rcases ha with rfl | rfl | rfl <;> omega
    · intro a ha b hb2
      simp only [List.mem_singleton] at hb2
      subst hb2
      rw [List.mem_append] at ha
      have hge := hb.2.2.2.1
      rcases ha with ha | ha
      · simp only [List.mem_cons, List.not_mem_nil, or_false] at ha
        rcases ha with rfl | rfl | rfl <;> omega
      · exact hb.2.2.1 a ha
  · have hmap : (ps.map procRec).map JobRecord.progress = ps := by
      rw [List.map_map]
      exact List.map_id ps
    simp only [List.map_append, List.map_cons, List.map_nil, hmap]
    show List.Pairwise (· ≤ ·) (([0, 10, 20] : List Nat) ++ (ps ++ [85, 100]))
    rw [List.pairwise_append]
    refine ⟨by decide, ?_, ?_⟩
    · rw [List.pairwise_append]
      refine ⟨hb.1, by decide, ?_⟩
      intro a ha b hb2
      have h80 := (hb.2.1 a ha).2
      simp only [List.mem_cons, List.not_mem_nil, or_false] at hb2
      rcases hb2 with rfl | rfl <;> omega
    · intro a ha b hb2
      rw [List.mem_append] at hb2
      simp only [List.mem_cons, List.not_mem_nil, or_false] at ha
      rcases hb2 with hb2 | hb2
      · have h20 := (hb.2.1 b hb2).1
        rcases ha with rfl | rfl | rfl <;> omega
      · simp only [List.mem_cons, List.not_mem_nil, or_false] at hb2
        rcases ha with rfl | rfl | rfl <;> rcases hb2 with rfl | rfl <;> omega

/-- Witness for C2 at the initial snapshot of a concrete failed run. -/
theorem c2_witness :
    (initialJob.progress = 100 ↔ initialJob.status = JobStatus.completed) ∧
    (errorNonempty initialJob = true ↔ initialJob.status = JobStatus.failed) ∧
    (initialJob.completed_at_set = true ↔ initialJob.status = JobStatus.completed) :=
  c2_amended_invariants envNoWindow "jobN" "5.6,-0.2"
    (some "https://example.com/hook") initialJob
    (by
      rw [show (process_imagery_job envNoWindow "jobN" "5.6,-0.2"
          (some "https://example.com/hook")).1 =
        [initialJob, procRec 10, procRec 20,
          failedAfter (procRec 20) "No imagery available for 2018-2025"] from rfl]
      exact List.mem_cons_self _ _)

/-- C7: when the resolved dates contain no date in the 2018-2025 window,
the job ends FAILED with the `No imagery available for 2018-2025` error,
no snapshot ever carries image descriptors, every webhook attempt (if
any) is of type `job.failed` - never `job.completed` - and no webhook
HTTP request is issued at all. -/
theorem c7_no_window_dates (env : PipelineEnv) (job_id coordinates : String)
    (callback_url : Option String) (ds : List String)
    (h1 : check_availability env = Except.ok ds)
    (h2 : dates_to_download ds = [])
    (h3 : coordinatesParseOk coordinates = true) :
    (finalRecord (process_imagery_job env job_id coordinates callback_url)).status =
      JobStatus.failed ∧
    (finalRecord (process_imagery_job env job_id coordinates callback_url)).error_message =
      some "No imagery available for 2018-2025" ∧
    ((process_imagery_job env job_id coordinates callback_url).1.all
      fun s => s.imagery_data.isNone) = true ∧
    ((process_imagery_job env job_id coordinates callback_url).2.all
      fun a => a.event == "job.failed") = true ∧
    ((process_imagery_job env job_id coordinates callback_url).2.all
      fun a => a.requests.isEmpty) = true := by
  unfold coordinatesParseOk at h3
  cases hsplit : pySplitChar ',' coordinates.data with
  | nil =>
    rw [hsplit] at h3
    exact Bool.noConfusion h3
  | cons p1 rest =>
    cases rest with
    | nil =>
      rw [hsplit] at h3
      exact Bool.noConfusion h3
    | cons p2 rest2 =>
      cases rest2 with
      | cons x xs =>
        rw [hsplit] at h3
        exact Bool.noConfusion h3
      | nil =>
        rw [hsplit] at h3
        have h3' : ((pyFloat p1).isSome && (pyFloat p2).isSome) = true := h3
        rw [Bool.and_eq_true] at h3'
        obtain ⟨hf1, hf2⟩ := h3'
        cases hpf1 : pyFloat p1 with
        | none =>
          rw [hpf1] at hf1
          exact absurd hf1 (by decide)
        | some q1 =>
          cases hpf2 : pyFloat p2 with
          | none =>
            rw [hpf2] at hf2
            exact absurd hf2 (by decide)
          | some q2 =>
            simp only [process_imagery_job, hsplit, hpf1, hpf2, h1, h2,
              List.isEmpty_nil, if_true]
            cases callback_url with
            | none => exact ⟨rfl, rfl, rfl, rfl, rfl⟩
            | some url => exact ⟨rfl, rfl, rfl, rfl, rfl⟩

/-- Witness for C7 over the out-of-window environment. -/
theorem c7_witness :
    check_availability envNoWindow = Except.ok ["2016-05-01"] ∧
    dates_to_download ["2016-05-01"] = [] ∧
    coordinatesParseOk "5.6,-0.2" = true ∧
    ((finalRecord runNoWindow).status = JobStatus.failed ∧
     (finalRecord runNoWindow).error_message =
       some "No imagery available for 2018-2025" ∧
     (runNoWindow.1.all fun s => s.imagery_data.isNone) = true ∧
     (runNoWindow.2.all fun a => a.event == "job.failed") = true ∧
     (runNoWindow.2.all fun a => a.requests.isEmpty) = true) :=
  ⟨rfl, rfl, rfl,
   c7_no_window_dates envNoWindow "jobN" "5.6,-0.2" (some "https://example.com/hook")
     ["2016-05-01"] rfl rfl rfl⟩

/-- C6: the change analyzer always returns a result carrying all three
keys `changes_detected`, `timeline` and `summary` and, being a total
function of its collaborators' outcomes, never raises to its caller;
whenever the inference call returns text, the fence-stripped text is
what reaches the JSON parser; and when a parsed object misses a required
key the analyzer returns the degraded result built from
`analysis.get(key, default)`, which preserves every available field. -/
theorem c6_analyzer_degrades_gracefully :
    (∀ (env : GeminiEnv) (paths : List String),
      hasRequiredKeys (analyze_with_gemini env paths) = true) ∧
    (∀ (env : GeminiEnv) (paths : List String) (t : String),
      env.call = Except.ok t →
      (paths.filter env.fileExists).isEmpty = false →
      analyze_with_gemini env paths =
        analyzeParsed (stripFences (String.mk (pyStrip t.data)))
          (env.parse (stripFences (String.mk (pyStrip t.data))))) ∧
    (∀ (kvs : List (String × JValue)) (t : String),
      (requiredKeys.filter fun k => (List.lookup k kvs).isNone) ≠ [] →
      analyzeParsed t (some (JValue.obj kvs)) =
        missingKeysResult kvs (requiredKeys.filter fun k => (List.lookup k kvs).isNone)) ∧
    (∀ (kvs : List (String × JValue)) (missing : List String),
      List.lookup "changes_detected" (missingKeysResult kvs missing) =
        some ((List.lookup "changes_detected" kvs).getD (JValue.arr [])) ∧
      List.lookup "timeline" (missingKeysResult kvs missing) =
        some ((List.lookup "timeline" kvs).getD (JValue.arr [])) ∧
      List.lookup "summary" (missingKeysResult kvs missing) =
        some ((List.lookup "summary" kvs).getD (JValue.str "Incomplete analysis"))) := by
  refine ⟨fun env paths => ?_, fun env paths t hcall himg => ?_,
    fun kvs t hne => ?_, fun kvs missing => ⟨rfl, rfl, rfl⟩⟩
  · simp only [analyze_with_gemini]
    by_cases h : (paths.filter env.fileExists).isEmpty = true
    · rw [if_pos h]
      rfl
    · rw [if_neg h]
      cases env.call with
      | error msg => rfl
      | ok raw => exact hasRequiredKeys_analyzeParsed _ _
  · simp only [analyze_with_gemini, hcall, himg]
    rw [if_neg (by simp [himg])]
  · simp only [analyzeParsed]
    rw [if_neg (by simpa [List.isEmpty_iff] using hne)]

/-- Witness for C6 over the fenced-response environment: the fenced text
reaches the parser stripped of its fences, and the missing `summary` key
yields the degraded result preserving both available fields. -/
theorem c6_witness :
    envFenced.call = Except.ok fencedResponseText ∧
    ((["img.png"].filter envFenced.fileExists).isEmpty = false) ∧
    analyze_with_gemini envFenced ["img.png"] =
      analyzeParsed (stripFences (String.mk (pyStrip fencedResponseText.data)))
        (envFenced.parse (stripFences (String.mk (pyStrip fencedResponseText.data)))) ∧
    (requiredKeys.filter fun k => (List.lookup k fencedKvs).isNone) ≠ [] ∧
    analyzeParsed "\x7b\x7d" (some (JValue.obj fencedKvs)) =
      missingKeysResult fencedKvs
        (requiredKeys.filter fun k => (List.lookup k fencedKvs).isNone) :=
  ⟨rfl, rfl,
   c6_analyzer_degrades_gracefully.2.1 envFenced ["img.png"] fencedResponseText rfl rfl,
   by decide,
   c6_analyzer_degrades_gracefully.2.2.1 fencedKvs "\x7b\x7d" (by decide)⟩

/-- C8: the availability resolver extracts exactly the tokens matching
the `YYYY/MM/DD` digit pattern (every extracted token is normalized to a
well-formed `YYYY-MM-DD` string), deduplicates them and returns them
sorted ascending in the Python string order; when zero tokens match it
fails with the `No imagery dates found` condition instead of returning
an empty list. -/
theorem c8_availability_resolver (out : String) :
    (parse_availability_output out = Except.error noDatesError ↔
      normalizedMatches out = []) ∧
    (normalizedMatches out).all isNormalizedDate = true ∧
    (normalizedMatches out ≠ [] →
      parse_availability_output out =
        Except.ok (sortedDedup (normalizedMatches out)) ∧
      (sortedDedup (normalizedMatches out)).Sorted strLe ∧
      (sortedDedup (normalizedMatches out)).Nodup ∧
      (sortedDedup (normalizedMatches out)).Perm (normalizedMatches out).dedup) := by
  refine ⟨?_, normalizedMatches_wellformed out, fun hne => ?_⟩
  · constructor
    · intro herr
      by_contra hne
      have hsd : sortedDedup (normalizedMatches out) ≠ [] :=
        fun hh => hne ((sortedDedup_eq_nil_iff _).mp hh)
      unfold parse_availability_output at herr
      rw [if_neg (by simpa [List.isEmpty_iff] using hsd)] at herr
      exact Except.noConfusion herr
    · intro hm
      have hsd : sortedDedup (normalizedMatches out) = [] :=
        (sortedDedup_eq_nil_iff _).mpr hm
      unfold parse_availability_output
      rw [if_pos (by simpa [List.isEmpty_iff] using hsd)]
  · have hsd : sortedDedup (normalizedMatches out) ≠ [] :=
      fun hh => hne ((sortedDedup_eq_nil_iff _).mp hh)
    refine ⟨?_, List.sorted_insertionSort strLe _,
      (sortedDedup_perm _).nodup_iff.mpr (List.nodup_dedup _), sortedDedup_perm _⟩
    unfold parse_availability_output
    rw [if_neg (by simpa [List.isEmpty_iff] using hsd)]

/-- Witness for C8 on a mixed output holding noise and a duplicate. -/
theorem c8_witness :
    normalizedMatches availabilitySample ≠ [] ∧
    (parse_availability_output availabilitySample =
      Except.ok (sortedDedup (normalizedMatches availabilitySample)) ∧
     (sortedDedup (normalizedMatches availabilitySample)).Sorted strLe ∧
     (sortedDedup (normalizedMatches availabilitySample)).Nodup ∧
     (sortedDedup (normalizedMatches availabilitySample)).Perm
       (normalizedMatches availabilitySample).dedup) :=
  ⟨by decide, (c8_availability_resolver availabilitySample).2.2 (by decide)⟩

/-- C10: the GeoTIFF min-max rescale is only well-defined when the pixel
maximum strictly exceeds the minimum: for a raster whose three read
bands hold a single constant value, the denominator
`data.max() - data.min()` is zero, and the rescale (read over exact
rationals, where division by zero is zero) maps no pixel to the
documented stretch value 255. -/
theorem c10_constant_raster_rescale_degenerate (c : Int) (l : List Int)
    (hne : l ≠ []) (hconst : ∀ x ∈ l, x = c) :
    rescaleDenom l = 0 ∧ ∀ x ∈ l, rescalePixel l x ≠ 255 := by
  have hmin : bandMin l = c := bandMin_const hne hconst
  have hmax : bandMax l = c := bandMax_const hne hconst
  have hden : rescaleDenom l = 0 := by
    unfold rescaleDenom
    rw [hmin, hmax]
    ring
  refine ⟨hden, fun x _ => ?_⟩
  unfold rescalePixel
  rw [hden, div_zero, zero_mul]
  norm_num

/-- Witness for C10 at the constant raster `[7, 7, 7]`. -/
theorem c10_witness :
    ([7, 7, 7] : List Int) ≠ [] ∧ (∀ x ∈ ([7, 7, 7] : List Int), x = 7) ∧
    (rescaleDenom [7, 7, 7] = 0 ∧ ∀ x ∈ ([7, 7, 7] : List Int), rescalePixel [7, 7, 7] x ≠ 255) :=
  ⟨by decide, by decide,
    c10_constant_raster_rescale_degenerate 7 [7, 7, 7] (by decide) (by decide)⟩

/-- C4 (code bug): even with a webhook signing secret configured, every
HTTP request issued by `send_webhook` carries no headers at all - in
particular no message-authentication-code header and no timestamp
header.  The configured secret is never read by the delivery code. -/
theorem c4_no_signature_headers (s : Settings) (outcome : Nat → HttpOutcome)
    (url : String) (payloadKeys : List String)
    (_hsecret : s.WEBHOOK_SIGNING_SECRET.isSome = true) :
    ((send_webhook outcome url payloadKeys).2.all fun r => r.headers.isEmpty) = true :=
  sendWebhookAux_headers_empty outcome url payloadKeys webhookMaxRetries 0

/-- Witness for C4: a configured secret and a delivery run whose single
request carries no headers. -/
theorem c4_witness :
    settingsWithSecret.WEBHOOK_SIGNING_SECRET.isSome = true ∧
    ((send_webhook (fun _ => HttpOutcome.status 200) "https://example.com/hook"
        completedPayloadKeys).2.all fun r => r.headers.isEmpty) = true :=
  ⟨rfl, c4_no_signature_headers settingsWithSecret (fun _ => HttpOutcome.status 200)
    "https://example.com/hook" completedPayloadKeys rfl⟩

/-- C1 (code bug): on a successfully completed job with a callback URL,
the orchestrator attempts the `job.completed` webhook call, but the call
passes the keyword argument `event` which `send_webhook(url, payload)`
does not accept, so the binding fails (`TypeError`), no HTTP request is
ever issued and nothing is delivered; the failure is caught at the call
site and the job stays COMPLETED. -/
theorem c1_completed_webhook_never_delivered :
    (finalRecord runWithCallback).status = JobStatus.completed ∧
    runWithCallback.2.map WebhookAttempt.event = ["job.completed"] ∧
    webhookCallBindsOk = false ∧
    (runWithCallback.2.all fun a => !a.bindsOk && !a.delivered && a.requests.isEmpty) = true :=
  ⟨rfl, rfl, rfl, rfl⟩

/-- C5 counterexample: the claimed scenario request (resolution 250) is
rejected by the `zoomLevel` bound `Field(18, ge=0, le=23)` of
`CaptureRequest`, so no job is created at all - its coordinates alone
would validate. -/
theorem c5_counterexample_zoom250 :
    capture_imagery scenarioRequest250 = none ∧
    validate_coordinates scenarioRequest250.coordinates = true ∧
    ¬ (0 ≤ scenarioRequest250.zoomLevel ∧ scenarioRequest250.zoomLevel ≤ 23) :=
  ⟨rfl, rfl, by decide⟩

/-- C5 as amended (resolution 18, inside the validated 0-23 range): the
request creates a QUEUED job with progress 0, and with the resolver
yielding 2018-01-01 and 2020-06-15 the completed job holds exactly those
two image descriptors in ascending date order, progress 100, and a
populated analysis object carrying the three required keys. -/
theorem c5_amended_scenario :
    capture_imagery scenarioRequest18 = some initialJob ∧
    initialJob.status = JobStatus.queued ∧
    initialJob.progress = 0 ∧
    (finalRecord runScenario).status = JobStatus.completed ∧
    (finalRecord runScenario).progress = 100 ∧
    ((finalRecord runScenario).imagery_data.getD []).map ImageResult.captureDate =
      ["2018-01-01", "2020-06-15"] ∧
    charListLe "2018-01-01".data "2020-06-15".data = true ∧
    ((finalRecord runScenario).ai_analysis.map hasRequiredKeys) = some true :=
  ⟨rfl, rfl, rfl, rfl, rfl, rfl, rfl, rfl⟩

end Geofy
